import Mathlib

set_option maxHeartbeats 1600000

/-!
Shallow embedding of the "AI Resume Analyzer & Job Recommender" repository
(files `src/preprocess.py`, `src/model.py`, `src/resume_parser.py`) and a
verification of its specification claims.

Modelling conventions:
* Python strings are Lean `String`s (always valid Unicode, so the
  `encode("utf-8","ignore").decode(...)` step of the cleaning primitive is the
  identity here).
* A pandas cell is `Option String`: `none` is a missing value (NaN), `some s`
  is a textual value.  Numeric-dtype formatting is outside the model; the
  claims only concern textual and missing cells.
* A pandas `DataFrame` is a list of column names plus a list of rows, each row
  a list of cells positionally aligned with the column names.
* Python exceptions (`KeyError`, `AttributeError`, `ValueError`) are modelled
  with `Except String`.
* The fitted TF-IDF vectorizer together with `cosine_similarity`
  (`model.py` lines 132-134) assigns one score to each corpus entry; it is
  modelled as an arbitrary function `simFn : String → String → ℚ` from the
  cleaned resume text and a corpus entry to a score, universally quantified in
  the theorems, so every similarity assignment the library could produce is
  covered.  Real arithmetic is modelled by `ℚ`.
-/

/-- Whitespace class used by `re.sub(r"\s+", " ", ...)` and `str.strip()`
(ASCII whitespace; the inputs of interest are ASCII). -/
def isPySpace (c : Char) : Bool :=
  c = ' ' || c = '\t' || c = '\n' || c = '\r' || c = '\x0b' || c = '\x0c'

/-- Embedding of `re.sub(r"\s+", " ", text)`: every maximal run of whitespace
characters becomes a single space.  The boolean argument records whether the
previously emitted character came from a whitespace run. -/
def collapseWSAux : Bool → List Char → List Char
  | _, [] => []
  | prevSpace, c :: cs =>
    if isPySpace c then
      if prevSpace then collapseWSAux true cs
      else ' ' :: collapseWSAux true cs
    else c :: collapseWSAux false cs

/-- Embedding of `str.strip()` on a character list. -/
def pyStripChars (l : List Char) : List Char :=
  ((l.dropWhile (fun c => isPySpace c)).reverse.dropWhile (fun c => isPySpace c)).reverse

/-- Embedding of `preprocess.text_that_is_cleaned` (preprocess.py lines 54-59)
restricted to string inputs: re-encode (identity on Lean strings), collapse
whitespace runs to a single space, then strip. -/
def text_that_is_cleaned (s : String) : String :=
  ⟨pyStripChars (collapseWSAux false s.data)⟩

/-- A Python value passed to the cleaning primitive: either a string or any
non-string object (the code treats all non-strings alike). -/
inductive PyObj where
  | pyStr (s : String)
  | nonStr
deriving DecidableEq

/-- Embedding of `preprocess.text_that_is_cleaned` on arbitrary Python values:
`if not isinstance(text, str): return ""`. -/
def text_that_is_cleaned_py : PyObj → String
  | .pyStr s => text_that_is_cleaned s
  | .nonStr => ""

/-- Embedding of `str.lower()` (character-wise; ASCII case mapping). -/
def pyLower (s : String) : String :=
  ⟨s.data.map Char.toLower⟩

/-- Embedding of `str.strip()` on strings (used by `if text.strip():`). -/
def pyStrip (s : String) : String :=
  ⟨pyStripChars s.data⟩

/-! ### A small regular-expression engine

`model.py` matches the category patterns with `re.search`.  The patterns only
use literals, `.`, character classes `\s`, `+`/`*` on classes, alternation,
grouping and the word boundary `\b`, so that fragment is embedded here. -/

/-- Regular-expression abstract syntax for the patterns appearing in
`model.py`. -/
inductive RE where
  | eps
  | ch (c : Char)
  | anyCh
  | cls (p : Char → Bool)
  | seq (a b : RE)
  | alt (a b : RE)
  | starCls (p : Char → Bool)
  | wordB

/-- Word character for `\b` (Python `\w` over the ASCII inputs at hand). -/
def isWordChar (c : Char) : Bool :=
  c.isAlphanum || c = '_'

/-- A word boundary sits between the previous and next character whenever
exactly one of them is a word character; the ends of the string count as
non-word. -/
def atBoundary (p n : Option Char) : Bool :=
  (match p with | none => false | some c => isWordChar c) !=
    (match n with | none => false | some c => isWordChar c)

/-- All the ways zero or more characters of class `p` can be consumed from the
front of the input (for `starCls`).  Each result records the character
preceding the rest of the input plus that rest. -/
def clsRuns (p : Char → Bool) : Option Char → List Char → List (Option Char × List Char)
  | pc, [] => [(pc, [])]
  | pc, c :: cs => (pc, c :: cs) :: (if p c then clsRuns p (some c) cs else [])

/-- Matching a regular expression at the start of the input.  `pc` is the
character immediately before the current position (for word boundaries); the
result lists every way the expression can match a prefix, each with the last
consumed character and the remaining input.  `anyCh` is Python's dot without
DOTALL: it matches any character except a newline. -/
def matches1 : RE → Option Char → List Char → List (Option Char × List Char)
  | .eps, pc, l => [(pc, l)]
  | .ch _, _, [] => []
  | .ch c, _, x :: xs => if x = c then [(some x, xs)] else []
  | .anyCh, _, [] => []
  | .anyCh, _, x :: xs => if x = '\n' then [] else [(some x, xs)]
  | .cls _, _, [] => []
  | .cls p, _, x :: xs => if p x then [(some x, xs)] else []
  | .seq a b, pc, l => (matches1 a pc l).flatMap (fun r => matches1 b r.1 r.2)
  | .alt a b, pc, l => matches1 a pc l ++ matches1 b pc l
  | .starCls p, pc, l => clsRuns p pc l
  | .wordB, pc, l => if atBoundary pc l.head? then [(pc, l)] else []

/-- Search for a match starting at any position (Python `re.search`). -/
def reSearchAux (r : RE) : Option Char → List Char → Bool
  | pc, [] => !(matches1 r pc []).isEmpty
  | pc, x :: xs => !(matches1 r pc (x :: xs)).isEmpty || reSearchAux r (some x) xs

/-- Embedding of `re.search(pattern, text)` viewed as a boolean test. -/
def re_search (r : RE) (s : String) : Bool :=
  reSearchAux r none s.data

/-- Literal regular expression for a string. -/
def lit (s : String) : RE :=
  s.data.foldr (fun c acc => RE.seq (RE.ch c) acc) RE.eps

/-- Pattern `\b<word>\b`. -/
def bword (s : String) : RE :=
  .seq .wordB (.seq (lit s) .wordB)

/-- Pattern `\s+`. -/
def wsPlus : RE := .seq (.cls isPySpace) (.starCls isPySpace)

/-- Pattern `\s*`. -/
def wsStar : RE := .starCls isPySpace

/-- Embedding of `model.Patterns_of_categories` (model.py lines 18-26); this
and the rows below transcribe each Python pattern string into the `RE` syntax.
This is the `qa` row (line 19). -/
def qa_patterns : List RE :=
  [bword "qa",
   .seq (lit "quality") (.seq wsPlus (lit "assurance")),
   lit "selenium", lit "pytest",
   .seq (lit "automation") .wordB,
   lit "sdet", lit "cypress", lit "testing"]

/-- The `finance` pattern row of model.py line 20. -/
def finance_patterns : List RE :=
  [bword "finance", lit "accounting", lit "auditing", bword "tax",
   lit "fp&a", lit "reconciliation", lit "budget"]

/-- The `data` pattern row of model.py line 21. -/
def data_patterns : List RE :=
  [.seq .wordB (.seq (lit "data") (.seq wsPlus
     (.seq (.alt (lit "analyst") (.alt (lit "scientist") (lit "engineer"))) .wordB))),
   bword "ml", bword "ai", bword "sql",
   lit "python", lit "pandas",
   .seq (lit "power") (.seq wsStar (lit "bi")),
   lit "tableau"]

/-- The unescaped `.net` alternative of the `software` pattern row (model.py
line 22): its leading dot matches any single character. -/
def dotNet : RE := .seq .anyCh (lit "net")

/-- The `software` pattern row of model.py line 22. -/
def software_patterns : List RE :=
  [.seq .wordB (.seq (lit "software") (.seq wsPlus
     (.seq (.alt (lit "developer") (lit "engineer")) .wordB))),
   .alt (lit "java") (.alt (lit "node") (.alt (lit "react")
     (.alt (lit "django") (.alt (lit "spring") dotNet)))),
   bword "api"]

/-- The `hr` pattern row of model.py line 23. -/
def hr_patterns : List RE :=
  [bword "hr",
   .seq (lit "recruit") (.alt (lit "ment") (lit "er")),
   .seq (lit "talent") (.seq wsPlus (lit "acquisition")),
   lit "payroll"]

/-- The `marketing` pattern row of model.py line 24. -/
def marketing_patterns : List RE :=
  [bword "marketing", bword "seo", bword "sem", lit "campaign",
   .seq (lit "content") (.seq wsPlus (lit "marketing"))]

/-- The `admin` pattern row of model.py line 25. -/
def admin_patterns : List RE :=
  [.seq (lit "administrative") (.seq wsPlus (lit "assistant")),
   .seq (lit "office") (.seq wsPlus (lit "assistant")),
   bword "clerical", lit "documentation"]

/-- The pattern table itself, in the source dictionary's insertion order. -/
def Patterns_of_categories : List (String × List RE) :=
  [("qa", qa_patterns), ("finance", finance_patterns), ("data", data_patterns),
   ("software", software_patterns), ("hr", hr_patterns),
   ("marketing", marketing_patterns), ("admin", admin_patterns)]

/-- Does any pattern of the list match the text? (inner loop of
`to_detect_the_category_of_resume`). -/
def catSearch (pats : List RE) (t : String) : Bool :=
  pats.any (fun p => re_search p t)

/-- Embedding of `model.to_detect_the_category_of_resume` (model.py lines
40-46): lower-case the text, then return the first category (in dictionary
order) one of whose patterns matches. -/
def to_detect_the_category_of_resume (text : String) : Option String :=
  (Patterns_of_categories.find? (fun cp => catSearch cp.2 (pyLower text))).map
    (fun cp => cp.1)

/-- Embedding of `model.Filter_for_title_category` (model.py lines 28-36). -/
def Filter_for_title_category : List (String × List String) :=
  [("qa", ["qa", "quality", "test", "testing", "automation", "sdet"]),
   ("finance", ["finance", "account", "audit", "tax", "analyst", "controller"]),
   ("data", ["data", "ml", "ai", "analytics", "scientist", "engineer"]),
   ("software", ["software", "developer", "engineer", "programmer", "web", "frontend", "backend"]),
   ("hr", ["hr", "recruit", "talent", "payroll"]),
   ("marketing", ["marketing", "seo", "sem", "content", "digital"]),
   ("admin", ["admin", "assistant", "office"])]

instance exceptDecidableEq {e a : Type} [DecidableEq e] [DecidableEq a] :
    DecidableEq (Except e a) := fun x y =>
  match x, y with
  | .error u, .error v =>
    if h : u = v then isTrue (by rw [h]) else isFalse (fun hc => h (by injection hc))
  | .error _, .ok _ => isFalse (fun hc => Except.noConfusion hc)
  | .ok _, .error _ => isFalse (fun hc => Except.noConfusion hc)
  | .ok u, .ok v =>
    if h : u = v then isTrue (by rw [h]) else isFalse (fun hc => h (by injection hc))

/-- A pandas cell: `none` is a missing value (NaN), `some s` a textual value. -/
abbrev Cell := Option String

/-- A pandas DataFrame: column names plus rows of cells aligned positionally
with the column names. -/
structure DataFrame where
  cols : List String
  rows : List (List Cell)
deriving DecidableEq

/-- The values of column `c` (one per row; positions beyond a row's length
read as missing). -/
def DataFrame.colVals (df : DataFrame) (c : String) : List Cell :=
  df.rows.map (fun r => r.getD (df.cols.indexOf c) none)

/-- Embedding of the column access `df[c]`: a `KeyError` when the column is
absent, otherwise the column's values. -/
def DataFrame.getCol (df : DataFrame) (c : String) : Except String (List Cell) :=
  if c ∈ df.cols then .ok (df.colVals c) else .error ("KeyError: " ++ c)

/-- Embedding of boolean-mask row selection `df[mask]`. -/
def DataFrame.filterRows (df : DataFrame) (mask : List Bool) : DataFrame :=
  { cols := df.cols,
    rows := ((df.rows.zip mask).filter (fun rb => rb.2)).map (fun rb => rb.1) }

/-- Does the first character list occur contiguously inside the second? -/
def hasSub : List Char → List Char → Bool
  | needle, [] => needle.isEmpty
  | needle, c :: t => needle.isPrefixOf (c :: t) || hasSub needle t

/-- Embedding of `Series.str.contains("|".join(keywords), case=False,
na=False)` at one cell: a missing value yields `False`, otherwise the test is
whether some keyword occurs case-insensitively as a substring (the joined
keywords contain no regex metacharacters, so the regex is a plain
alternation of literals). -/
def cellMatches (kws : List String) : Cell → Bool
  | none => false
  | some s => kws.any (fun k => hasSub (pyLower k).data (pyLower s).data)

/-- The keyword mask of `to_filter_the_jobs_basedon_category` (model.py lines
113-117): the disjunction of the JobTitle, JobDescription and Skills tests. -/
def maskOf (t d s : List Cell) (kws : List String) : List Bool :=
  List.zipWith3 (fun a b c => cellMatches kws a || cellMatches kws b || cellMatches kws c) t d s

/-- Embedding of `model.JobRecommender.to_filter_the_jobs_basedon_category`
(model.py lines 104-127).  Column accesses happen in source order (JobTitle,
JobDescription, Skills) and raise a `KeyError` on an absent column. -/
def to_filter_the_jobs_basedon_category (df : DataFrame) (resume_text : String) :
    Except String (DataFrame × Option String) :=
  match to_detect_the_category_of_resume resume_text with
  | none => .ok (df, none)
  | some cat =>
    let keywords := (Filter_for_title_category.lookup cat).getD []
    if keywords = [] then .ok (df, some cat)
    else
      match df.getCol "JobTitle" with
      | .error e => .error e
      | .ok tcol =>
        match df.getCol "JobDescription" with
        | .error e => .error e
        | .ok dcol =>
          match df.getCol "Skills" with
          | .error e => .error e
          | .ok scol =>
            let filtered := df.filterRows (maskOf tcol dcol scol keywords)
            if filtered.rows.length < 5 then .ok (df, some cat)
            else .ok (filtered, some cat)

/-- Embedding of `Series.astype(str)` at one cell: `str(nan)` is the
three-letter string `"nan"`, not the empty string. -/
def astypeStrCell : Cell → Cell
  | none => some "nan"
  | some s => some s

/-- Embedding of `Series.fillna("")` at one cell. -/
def fillnaEmpty : Cell → Cell
  | none => some ""
  | some s => some s

/-- Embedding of the direct-CSV cleaning steps of `JobRecommender.__init__`
(model.py lines 63-69): for every column, `astype(str)` then `fillna("")`, in
that source order; then `text_that_is_cleaned` over the JobTitle,
JobDescription and Skills columns that exist.  The later row-cap sampling
(lines 71-74) and the TF-IDF fitting (lines 79-84) do not alter cell values
and are outside this definition. -/
def initFillClean (df : DataFrame) : DataFrame :=
  let filled : List (List Cell) :=
    df.rows.map (fun r => r.map (fun v => fillnaEmpty (astypeStrCell v)))
  { cols := df.cols,
    rows := filled.map (fun r =>
      (df.cols.zip r).map (fun cv =>
        if cv.1 = "JobTitle" || cv.1 = "JobDescription" || cv.1 = "Skills"
        then cv.2.map text_that_is_cleaned else cv.2)) }

/-- Embedding of `df.get(c, "").astype(str)` inside `to_compose_jobcorpus`:
when the column exists this is its values with `str()` applied (NaN becomes
`"nan"`); when it is absent, `df.get` returns the scalar default `""`, a plain
Python `str`, which has no `astype` method, so the call raises an
`AttributeError`. -/
def dfGetAstypeStr (df : DataFrame) (c : String) : Except String (List String) :=
  if c ∈ df.cols then .ok ((df.colVals c).map (fun v => v.getD "nan"))
  else .error ("AttributeError: str object has no attribute astype")

/-- Embedding of `model.JobRecommender.to_compose_jobcorpus` (model.py lines
97-101): one string per row, the cleaned concatenation of the JobTitle,
Skills and JobDescription values joined by the separator. -/
def to_compose_jobcorpus (df : DataFrame) : Except String (List String) :=
  match dfGetAstypeStr df "JobTitle" with
  | .error e => .error e
  | .ok titles =>
    match dfGetAstypeStr df "Skills" with
    | .error e => .error e
    | .ok skills =>
      match dfGetAstypeStr df "JobDescription" with
      | .error e => .error e
      | .ok descs =>
        .ok ((List.zipWith3
          (fun t s d => t ++ " || " ++ s ++ " || " ++ d) titles skills descs).map
            text_that_is_cleaned)

/-- Embedding of `np.clip(x, 0, 1)`. -/
def clip01 (q : ℚ) : ℚ := max 0 (min 1 q)

/-- Round to the nearest integer, ties to even (the rounding `np.round`
uses; its binary floating-point representation effects are outside the
rational model). -/
def roundHalfEven (q : ℚ) : ℤ :=
  if q - ⌊q⌋ < 1/2 then ⌊q⌋
  else if (1 : ℚ)/2 < q - ⌊q⌋ then ⌊q⌋ + 1
  else if ⌊q⌋ % 2 = 0 then ⌊q⌋ else ⌊q⌋ + 1

/-- Embedding of `np.round(x, 2)`. -/
def np_round2 (q : ℚ) : ℚ := ((roundHalfEven (q * 100) : ℤ) : ℚ) / 100

/-- One entry of the output `similarity` column (model.py line 144):
`(np.clip(x, 0, 1) * 100).round(2)`. -/
def simEntry (q : ℚ) : ℚ := np_round2 (clip01 q * 100)

/-- The index order used to embed `argpartition`/`argsort` (model.py lines
139-140): indices sorted by strictly greater score first, ties by original
index order.  The composite "partition to the top `top_k`, then sort that
subset descending" is a selection of `top_k` top-scoring indices sorted
descending; numpy leaves the tie order unspecified, and this embedding
determinizes it by original position. -/
def argRel (sim : List ℚ) (i j : Nat) : Prop :=
  sim.getD j 0 < sim.getD i 0 ∨ (sim.getD i 0 = sim.getD j 0 ∧ i ≤ j)

instance argRelDecidable (sim : List ℚ) : DecidableRel (argRel sim) := fun i j => by
  unfold argRel; infer_instance

/-- Embedding of lines 139-140 of model.py: the positions of the `top_k`
highest scores, sorted descending by score. -/
def top_idx (sim : List ℚ) (top_k : Nat) : List Nat :=
  ((List.range sim.length).insertionSort (argRel sim)).take top_k

/-- The result frame of `recommend`: projected job columns plus the
`similarity` column (kept as a separate rational-valued field). -/
structure OutFrame where
  cols : List String
  rows : List (List Cell)
  sims : List ℚ
deriving DecidableEq

/-- The column set of the empty result (model.py line 137). -/
def Output_columns : List String :=
  ["JobTitle", "Company Name", "Contact Person", "Skills", "Job Portal", "similarity"]

/-- `keep_cols` of model.py line 142: the expected columns that are present. -/
def keepColsOf (df : DataFrame) : List String :=
  ["JobTitle", "Company Name", "Contact Person", "Skills", "Job Portal"].filter
    (fun c => df.cols.contains c)

/-- Positional cell access `df.iloc[i][c]`. -/
def DataFrame.cellAt (df : DataFrame) (i : Nat) (c : String) : Cell :=
  (df.rows.getD i []).getD (df.cols.indexOf c) none

/-- Embedding of `model.JobRecommender.recommend` (model.py lines 130-146).
`simFn` stands for the fitted vectorizer plus cosine similarity: given the
cleaned resume text it scores one corpus entry; on a non-empty corpus
`cosine_similarity` yields exactly one score per filtered job row, but on a
zero-entry corpus the sklearn input validation inside
`transform`/`cosine_similarity` (lines 133-134) raises a ValueError rejecting
a 0-sample array, before the `len(sim) == 0` guard of line 136 is reached —
that guard is therefore unreachable. -/
def recommend (df : DataFrame) (resume_text : String) (simFn : String → String → ℚ)
    (top_k : Nat) : Except String OutFrame :=
  match to_filter_the_jobs_basedon_category df resume_text with
  | .error e => .error e
  | .ok jf =>
    match to_compose_jobcorpus jf.1 with
    | .error e => .error e
    | .ok corpus =>
      if corpus = [] then
        .error ("ValueError: Found array with 0 sample(s)")
      else
      let sim := corpus.map (simFn (text_that_is_cleaned resume_text))
      if sim.length = 0 then
        .ok { cols := Output_columns, rows := [], sims := [] }
      else
        let ti := top_idx sim top_k
        .ok { cols := keepColsOf jf.1 ++ ["similarity"],
              rows := ti.map (fun i => (keepColsOf jf.1).map (fun c => jf.1.cellAt i c)),
              sims := ti.map (fun i => simEntry (sim.getD i 0)) }

/-! ### Resume parser (resume_parser.py)

The PDF/DOCX/TXT reading libraries are external; each is modelled by the
outcome it would produce: `none`/`raises` for an exception, otherwise the raw
text it returns (per page / per paragraph / whole file). -/

/-- What `PyPDF2.PdfReader` would do on the file: raise, or yield the list of
per-page `extract_text()` results (`none` when a page yields no text). -/
inductive PdfOutcome where
  | raises
  | pages (ps : List (Option String))
deriving DecidableEq

/-- Embedding of `resume_parser.Formats_supported`.  The source holds them in
a Python set; the model fixes the literal order. -/
def Formats_supported : List String := [".pdf", ".docx", ".txt"]

/-- The pdfminer fallback block of `to_read_the_pdf`: cleaned text on
success, the empty string when extraction raises. -/
def pdfminerFallback : Option String → String
  | some t => text_that_is_cleaned t
  | none => ""

/-- Embedding of `resume_parser.to_read_the_pdf` (lines 15-36): join the
per-page texts with newlines; if the joined text is non-blank return it
cleaned, otherwise (or when PyPDF2 raises) fall back to pdfminer. -/
def to_read_the_pdf (o : PdfOutcome) (miner : Option String) : String :=
  match o with
  | .pages ps =>
    let text := String.intercalate "\n" (ps.map (fun p => p.getD ""))
    if pyStrip text ≠ "" then text_that_is_cleaned text
    else pdfminerFallback miner
  | .raises => pdfminerFallback miner

/-- Embedding of `resume_parser.to_read_the_docx` (lines 39-49). -/
def to_read_the_docx (o : Option (List String)) : String :=
  match o with
  | some ps => text_that_is_cleaned (String.intercalate "\n" ps)
  | none => ""

/-- Embedding of `resume_parser.to_read_the_txt` (lines 52-60). -/
def to_read_the_txt (o : Option String) : String :=
  match o with
  | some t => text_that_is_cleaned t
  | none => ""

/-- Index of the last `'.'` in a character list, if any. -/
def lastDotIdx : List Char → Option Nat
  | [] => none
  | c :: cs =>
    match lastDotIdx cs with
    | some i => some (i + 1)
    | none => if c = '.' then some 0 else none

/-- The final path component (POSIX separators). -/
def baseName (l : List Char) : List Char :=
  (l.reverse.takeWhile (fun c => c ≠ '/')).reverse

/-- Embedding of `pathlib.Path(path).suffix`: the part of the final component
from its last dot, provided that dot is neither the first nor the last
character of the component. -/
def pathSuffix (path : String) : String :=
  let name := baseName path.data
  match lastDotIdx name with
  | some i => if 0 < i ∧ i < name.length - 1 then ⟨name.drop i⟩ else ""
  | none => ""

/-- The `ValueError` message of `to_parse_the_resume` for an unsupported
extension (resume_parser.py lines 75-77): it names the extension and joins
the supported formats. -/
def unsupportedMsg (ext : String) : String :=
  "❌ Given file type is not supported: " ++ ext ++ ". formats that are supported: " ++
    String.intercalate ", " Formats_supported

/-- Embedding of `resume_parser.to_parse_the_resume` (lines 63-77): dispatch
on the lower-cased file extension; raise `ValueError` for an unsupported one. -/
def to_parse_the_resume (path : String) (pdf : PdfOutcome) (miner : Option String)
    (dcx : Option (List String)) (txt : Option String) : Except String String :=
  let ext := pyLower (pathSuffix path)
  if ext = ".pdf" then .ok (to_read_the_pdf pdf miner)
  else if ext = ".docx" then .ok (to_read_the_docx dcx)
  else if ext = ".txt" then .ok (to_read_the_txt txt)
  else .error (unsupportedMsg ext)

/-- A five-row dataset used to exercise the recommender on concrete inputs. -/
def sampleJobs : DataFrame :=
  { cols := ["JobTitle", "JobDescription", "Skills"],
    rows := [[some "a", some "", some ""],
             [some "bb", some "", some ""],
             [some "ccc", some "", some ""],
             [some "dddd", some "", some ""],
             [some "eeeee", some "", some ""]] }

/-- A similarity assignment scoring a corpus entry by its length (one of the
possible `simFn` values). -/
def lengthScore : String → String → ℚ := fun _ e => (e.length : ℚ)

/-! ### Properties of the cleaning primitive -/

/-- Adjacent characters are not both whitespace. -/
def noTwoSpaces (a b : Char) : Prop := ¬(isPySpace a = true ∧ isPySpace b = true)

/-- Every whitespace character of the list is a plain space. -/
def spacesAreBlank (l : List Char) : Prop := ∀ c ∈ l, isPySpace c = true → c = ' '

/-- The keyword mask a category induces on a dataset (the mask built at
model.py lines 113-117 when the three columns are present). -/
def categoryMask (df : DataFrame) (cat : String) : List Bool :=
  maskOf (df.colVals "JobTitle") (df.colVals "JobDescription") (df.colVals "Skills")
    ((Filter_for_title_category.lookup cat).getD [])

theorem collapseWSAux_cons (b : Bool) (x : Char) (xs : List Char) :
    collapseWSAux b (x :: xs) =
      if isPySpace x then
        (if b then collapseWSAux true xs else ' ' :: collapseWSAux true xs)
      else x :: collapseWSAux false xs := rfl

theorem collapse_spacesAreBlank (b : Bool) (l : List Char) :
    spacesAreBlank (collapseWSAux b l) := by
  induction l generalizing b with
  | nil => intro c hc; simp [collapseWSAux] at hc
  | cons x xs ih =>
    intro c hc hsp
    by_cases hx : isPySpace x
    · rw [collapseWSAux_cons, if_pos hx] at hc
      cases b with
      | true =>
        rw [if_pos rfl] at hc
        exact ih true c hc hsp
      | false =>
        rw [if_neg Bool.false_ne_true] at hc
        rcases List.mem_cons.mp hc with h | h
        · exact h
        · exact ih true c h hsp
    · rw [collapseWSAux_cons, if_neg hx] at hc
      rcases List.mem_cons.mp hc with h | h
      · rw [h] at hsp; exact absurd hsp hx
      · exact ih false c h hsp

theorem collapse_head_true (l : List Char) :
    ∀ c, (collapseWSAux true l).head? = some c → isPySpace c = false := by
  induction l with
  | nil => intro c hc; simp [collapseWSAux] at hc
  | cons x xs ih =>
    intro c hc
    by_cases hx : isPySpace x
    · rw [collapseWSAux_cons, if_pos hx, if_pos rfl] at hc
      exact ih c hc
    · rw [collapseWSAux_cons, if_neg hx, List.head?_cons] at hc
      have hxc : x = c := by injection hc
      rw [← hxc]
      simpa using hx

theorem collapse_chain (b : Bool) (l : List Char) :
    List.Chain' noTwoSpaces (collapseWSAux b l) := by
  induction l generalizing b with
  | nil => simp [collapseWSAux]
  | cons x xs ih =>
    by_cases hx : isPySpace x
    · rw [collapseWSAux_cons, if_pos hx]
      cases b with
      | true => rw [if_pos rfl]; exact ih true
      | false =>
        rw [if_neg Bool.false_ne_true]
        refine List.chain'_cons'.mpr ⟨?_, ih true⟩
        intro y hy hcon
        have hyns := collapse_head_true xs y (Option.mem_def.mp hy)
        rw [hyns] at hcon
        exact absurd hcon.2 (by simp)
    · rw [collapseWSAux_cons, if_neg hx]
      refine List.chain'_cons'.mpr ⟨?_, ih false⟩
      intro y _ hcon
      exact hx hcon.1

theorem collapse_fix (l : List Char) (hsp : spacesAreBlank l)
    (hch : List.Chain' noTwoSpaces l) :
    collapseWSAux false l = l ∧
      ((∀ c, l.head? = some c → isPySpace c = false) → collapseWSAux true l = l) := by
  induction l with
  | nil => exact ⟨rfl, fun _ => rfl⟩
  | cons x xs ih =>
    have hsx : spacesAreBlank xs := fun c hc h => hsp c (List.mem_cons_of_mem x hc) h
    rcases List.chain'_cons'.mp hch with ⟨hrel, hchx⟩
    rcases ih hsx hchx with ⟨ihf, iht⟩
    by_cases hx : isPySpace x
    · have hxblank : x = ' ' := hsp x (List.mem_cons_self x xs) hx
      have hxs_head : ∀ c, xs.head? = some c → isPySpace c = false := by
        intro c hc
        have hr := hrel c (Option.mem_def.mpr hc)
        by_contra hcc
        exact hr ⟨hx, by simpa using hcc⟩
      constructor
      · rw [collapseWSAux_cons, if_pos hx, if_neg Bool.false_ne_true, iht hxs_head, hxblank]
      · intro hhead
        exact absurd hx (by simp [hhead x rfl])
    · have hxf : x :: collapseWSAux false xs = x :: xs := by rw [ihf]
      constructor
      · rw [collapseWSAux_cons, if_neg hx]; exact hxf
      · intro _
        rw [collapseWSAux_cons, if_neg hx]; exact hxf

theorem dropWhile_head_not {α : Type} (p : α → Bool) (l : List α) :
    ∀ c, (l.dropWhile p).head? = some c → p c = false := by
  induction l with
  | nil => intro c hc; simp at hc
  | cons x xs ih =>
    intro c hc
    by_cases hx : p x
    · rw [List.dropWhile_cons, if_pos hx] at hc; exact ih c hc
    · rw [List.dropWhile_cons, if_neg hx, List.head?_cons] at hc
      have hxc : x = c := by injection hc
      rw [← hxc]
      simpa using hx

theorem dropWhile_suffix_decomp {α : Type} (p : α → Bool) (l : List α) :
    ∃ t, l = t ++ l.dropWhile p := by
  induction l with
  | nil => exact ⟨[], rfl⟩
  | cons x xs ih =>
    by_cases hx : p x
    · rcases ih with ⟨t, ht⟩
      refine ⟨x :: t, ?_⟩
      rw [List.dropWhile_cons, if_pos hx, List.cons_append, ← ht]
    · exact ⟨[], by rw [List.dropWhile_cons, if_neg hx]; rfl⟩

theorem chain'_dropWhile {α : Type} {R : α → α → Prop} (p : α → Bool) (l : List α)
    (h : List.Chain' R l) : List.Chain' R (l.dropWhile p) := by
  rcases dropWhile_suffix_decomp p l with ⟨t, ht⟩
  rw [ht] at h
  exact (List.chain'_append.mp h).2.1

theorem mem_dropWhile {α : Type} {p : α → Bool} {l : List α} {c : α}
    (hc : c ∈ l.dropWhile p) : c ∈ l := by
  rcases dropWhile_suffix_decomp p l with ⟨t, ht⟩
  rw [ht]
  exact List.mem_append_right t hc

theorem mem_pyStripChars {l : List Char} {c : Char} (hc : c ∈ pyStripChars l) : c ∈ l := by
  unfold pyStripChars at hc
  rw [List.mem_reverse] at hc
  have h2 := mem_dropWhile hc
  rw [List.mem_reverse] at h2
  exact mem_dropWhile h2

theorem chain'_reverse_symm {α : Type} {R : α → α → Prop} (hsymm : ∀ a b, R a b → R b a)
    {l : List α} (h : List.Chain' R l) : List.Chain' R l.reverse := by
  rw [List.chain'_reverse]
  exact h.imp (fun a b hab => hsymm a b hab)

theorem chain'_pyStripChars {R : Char → Char → Prop} (hsymm : ∀ a b, R a b → R b a)
    {l : List Char} (h : List.Chain' R l) : List.Chain' R (pyStripChars l) := by
  unfold pyStripChars
  exact chain'_reverse_symm hsymm (chain'_dropWhile _ _ (chain'_reverse_symm hsymm (chain'_dropWhile _ _ h)))

theorem pyStripChars_head_not (l : List Char) :
    ∀ c, (pyStripChars l).head? = some c → isPySpace c = false := by
  intro c hc
  unfold pyStripChars at hc
  rw [List.head?_reverse] at hc
  rcases dropWhile_suffix_decomp (fun c => isPySpace c)
      ((l.dropWhile (fun c => isPySpace c)).reverse) with ⟨t, ht⟩
  have h1 : (l.dropWhile (fun c => isPySpace c)).reverse.getLast? = some c := by
    rw [ht, List.getLast?_append, hc]
    rfl
  rw [List.getLast?_reverse] at h1
  exact dropWhile_head_not _ _ c h1

theorem pyStripChars_getLast_not (l : List Char) :
    ∀ c, (pyStripChars l).getLast? = some c → isPySpace c = false := by
  intro c hc
  unfold pyStripChars at hc
  rw [List.getLast?_reverse] at hc
  exact dropWhile_head_not _ _ c hc

theorem dropWhile_eq_self_of_head {α : Type} (p : α → Bool) (l : List α)
    (h : ∀ c, l.head? = some c → p c = false) : l.dropWhile p = l := by
  cases l with
  | nil => rfl
  | cons x xs =>
    rw [List.dropWhile_cons, if_neg]
    simp [h x rfl]

theorem pyStripChars_eq_self (l : List Char)
    (h1 : ∀ c, l.head? = some c → isPySpace c = false)
    (h2 : ∀ c, l.getLast? = some c → isPySpace c = false) :
    pyStripChars l = l := by
  unfold pyStripChars
  rw [dropWhile_eq_self_of_head _ l h1]
  rw [dropWhile_eq_self_of_head _ l.reverse
    (by intro c hc; rw [List.head?_reverse] at hc; exact h2 c hc)]
  exact List.reverse_reverse l

theorem text_that_is_cleaned_idem (s : String) :
    text_that_is_cleaned (text_that_is_cleaned s) = text_that_is_cleaned s := by
  show String.mk (pyStripChars (collapseWSAux false
      (pyStripChars (collapseWSAux false s.data)))) =
    String.mk (pyStripChars (collapseWSAux false s.data))
  congr 1
  have hspm : spacesAreBlank (collapseWSAux false s.data) :=
    collapse_spacesAreBlank false s.data
  have hchm : List.Chain' noTwoSpaces (collapseWSAux false s.data) :=
    collapse_chain false s.data
  have hspt : spacesAreBlank (pyStripChars (collapseWSAux false s.data)) :=
    fun c hc h => hspm c (mem_pyStripChars hc) h
  have hcht : List.Chain' noTwoSpaces (pyStripChars (collapseWSAux false s.data)) :=
    chain'_pyStripChars (fun a b hab h => hab ⟨h.2, h.1⟩) hchm
  rw [(collapse_fix _ hspt hcht).1]
  exact pyStripChars_eq_self _ (pyStripChars_head_not _) (pyStripChars_getLast_not _)

/-- C6: the shared text-cleaning primitive is idempotent — cleaning twice
yields what cleaning once yields (its outputs have no internal whitespace
runs and no leading or trailing whitespace, and they are Lean strings, hence
valid Unicode) — and on any non-string input it returns the empty string. -/
theorem C6_clean_idempotent_nonstring_empty :
    (∀ s : String,
        text_that_is_cleaned (text_that_is_cleaned s) = text_that_is_cleaned s) ∧
      text_that_is_cleaned_py PyObj.nonStr = "" :=
  ⟨text_that_is_cleaned_idem, rfl⟩

/-- C5: the fixed pattern table and first-match iteration order classify the
QA sample as `qa`, the HR sample as `hr` (no earlier category matches it),
and a sentence matching no pattern as no category. -/
theorem C5_detect_category_samples :
    to_detect_the_category_of_resume
        ("QA engineer skilled in Selenium, automation testing, and API validation.") =
          some "qa" ∧
      to_detect_the_category_of_resume
        ("HR manager with experience in recruitment and payroll systems.") = some "hr" ∧
      to_detect_the_category_of_resume ("I enjoy painting landscapes.") = none := by
  exact ⟨by decide, by decide, by decide⟩

/-- C1: evaluation of the direct-CSV construction path at a frame whose only
JobTitle cell is missing.  `df[col].astype(str)` turns the missing value into
the string "nan" before `fillna("")` runs, so the retained dataset holds
"nan", not the empty string the claim (and `fillna`'s evident intent)
prescribe. -/
theorem C1_missing_cell_becomes_nan_not_empty :
    (initFillClean { cols := ["JobTitle"], rows := [[(none : Cell)]] }).rows =
        [[some "nan"]] ∧ ("nan" : String) ≠ "" := by
  exact ⟨by decide, by decide⟩

/-- C2: evaluation of the corpus composition.  With all three columns present
it produces one cleaned " || "-joined string per row, but on a frame without
a Skills column the scalar default of `df.get("Skills", "")` has no `astype`
method and the call raises instead of defaulting the field to the empty
string. -/
theorem C2_absent_column_raises_not_defaults :
    to_compose_jobcorpus
        { cols := ["JobTitle", "JobDescription"],
          rows := [[some "Dev", some "Builds apps"]] } =
        .error ("AttributeError: str object has no attribute astype") ∧
      to_compose_jobcorpus
        { cols := ["JobTitle", "Skills", "JobDescription"],
          rows := [[some "Dev", some "python sql", some "Builds  apps"]] } =
        .ok ["Dev || python sql || Builds apps"] := by
  exact ⟨by decide, by decide⟩

theorem detect_mem_categories (t c : String)
    (h : to_detect_the_category_of_resume t = some c) :
    c = "qa" ∨ c = "finance" ∨ c = "data" ∨ c = "software" ∨ c = "hr" ∨
      c = "marketing" ∨ c = "admin" := by
  unfold to_detect_the_category_of_resume at h
  rcases ho : Patterns_of_categories.find? (fun cp => catSearch cp.2 (pyLower t))
    with _ | cp
  · rw [ho] at h; exact absurd h (by simp)
  · rw [ho] at h
    have hcp : cp.1 = c := by simpa using h
    have hmem := List.mem_of_find?_eq_some ho
    rw [← hcp]
    simp only [Patterns_of_categories, List.mem_cons] at hmem
    rcases hmem with rfl | rfl | rfl | rfl | rfl | rfl | rfl | hmem
    · exact Or.inl rfl
    · exact Or.inr (Or.inl rfl)
    · exact Or.inr (Or.inr (Or.inl rfl))
    · exact Or.inr (Or.inr (Or.inr (Or.inl rfl)))
    · exact Or.inr (Or.inr (Or.inr (Or.inr (Or.inl rfl))))
    · exact Or.inr (Or.inr (Or.inr (Or.inr (Or.inr (Or.inl rfl)))))
    · exact Or.inr (Or.inr (Or.inr (Or.inr (Or.inr (Or.inr rfl)))))
    · exact absurd hmem (by simp)

theorem keywords_of_detected_nonempty (t c : String)
    (h : to_detect_the_category_of_resume t = some c) :
    (Filter_for_title_category.lookup c).getD [] ≠ [] := by
  rcases detect_mem_categories t c h with rfl | rfl | rfl | rfl | rfl | rfl | rfl <;> decide

theorem filter_detected (df : DataFrame) (resume cat : String)
    (hdet : to_detect_the_category_of_resume resume = some cat)
    (ht : "JobTitle" ∈ df.cols) (hd : "JobDescription" ∈ df.cols)
    (hs : "Skills" ∈ df.cols) :
    to_filter_the_jobs_basedon_category df resume =
      (if (df.filterRows (categoryMask df cat)).rows.length < 5 then .ok (df, some cat)
       else .ok (df.filterRows (categoryMask df cat), some cat)) := by
  have hkw := keywords_of_detected_nonempty resume cat hdet
  unfold to_filter_the_jobs_basedon_category
  simp only [hdet]
  rw [if_neg hkw]
  simp only [DataFrame.getCol, if_pos ht, if_pos hd, if_pos hs]
  rfl

/-- C4: on a dataset holding the JobTitle, JobDescription and Skills columns
the filter criterion reads, and a resume with a detected category: when fewer
than 5 rows match the category's keywords (case-insensitive substring match
against those columns) the full dataset is returned unchanged with the
category still reported; otherwise exactly the mask-matching rows are
returned with the category. -/
theorem C4_category_filter_fallback (df : DataFrame) (resume cat : String)
    (hdet : to_detect_the_category_of_resume resume = some cat)
    (ht : "JobTitle" ∈ df.cols) (hd : "JobDescription" ∈ df.cols)
    (hs : "Skills" ∈ df.cols) :
    (((df.filterRows (categoryMask df cat)).rows.length < 5 →
        to_filter_the_jobs_basedon_category df resume = .ok (df, some cat)) ∧
      (5 ≤ (df.filterRows (categoryMask df cat)).rows.length →
        to_filter_the_jobs_basedon_category df resume =
          .ok (df.filterRows (categoryMask df cat), some cat))) := by
  rw [filter_detected df resume cat hdet ht hd hs]
  constructor
  · intro hlen
    rw [if_pos hlen]
  · intro hlen
    rw [if_neg (by omega)]

/-- Witness for C4 at a concrete dataset and resume: the resume is detected
as qa, only 0 rows (fewer than 5) match the qa keywords, and the filter
returns the whole dataset with the category. -/
theorem C4_category_filter_fallback_witness :
    to_detect_the_category_of_resume ("selenium expert") = some "qa" ∧
      ("JobTitle" ∈ (DataFrame.mk ["JobTitle", "JobDescription", "Skills"]
          [[some "x", some "y", some "z"]]).cols) ∧
      ((DataFrame.mk ["JobTitle", "JobDescription", "Skills"]
          [[some "x", some "y", some "z"]]).filterRows
        (categoryMask (DataFrame.mk ["JobTitle", "JobDescription", "Skills"]
          [[some "x", some "y", some "z"]]) "qa")).rows.length < 5 ∧
      to_filter_the_jobs_basedon_category
          (DataFrame.mk ["JobTitle", "JobDescription", "Skills"]
            [[some "x", some "y", some "z"]]) ("selenium expert") =
        .ok (DataFrame.mk ["JobTitle", "JobDescription", "Skills"]
          [[some "x", some "y", some "z"]], some "qa") :=
  ⟨by decide, by decide, by decide,
    (C4_category_filter_fallback
        (DataFrame.mk ["JobTitle", "JobDescription", "Skills"]
          [[some "x", some "y", some "z"]]) ("selenium expert") ("qa")
        (by decide) (by decide) (by decide) (by decide)).1 (by decide)⟩

/-- C10: on a dataset missing at least one of the JobTitle, JobDescription or
Skills columns, and a resume with a detected category, the filter raises
(KeyError on the first absent column accessed) instead of filtering or
falling back, and therefore recommend raises as well. -/
theorem C10_missing_column_raises (df : DataFrame) (resume cat : String)
    (hdet : to_detect_the_category_of_resume resume = some cat)
    (habs : "JobTitle" ∉ df.cols ∨ "JobDescription" ∉ df.cols ∨ "Skills" ∉ df.cols) :
    ((∃ e, to_filter_the_jobs_basedon_category df resume = .error e) ∧
      ∀ (simFn : String → String → ℚ) (k : Nat),
        ∃ e, recommend df resume simFn k = .error e) := by
  have hkw := keywords_of_detected_nonempty resume cat hdet
  have hfil : ∃ e, to_filter_the_jobs_basedon_category df resume = .error e := by
    unfold to_filter_the_jobs_basedon_category
    simp only [hdet]
    rw [if_neg hkw]
    by_cases ht : "JobTitle" ∈ df.cols
    · by_cases hd : "JobDescription" ∈ df.cols
      · have hsn : "Skills" ∉ df.cols := by tauto
        refine ⟨"KeyError: " ++ "Skills", ?_⟩
        simp only [DataFrame.getCol, if_pos ht, if_pos hd, if_neg hsn]
      · refine ⟨"KeyError: " ++ "JobDescription", ?_⟩
        simp only [DataFrame.getCol, if_pos ht, if_neg hd]
    · refine ⟨"KeyError: " ++ "JobTitle", ?_⟩
      simp only [DataFrame.getCol, if_neg ht]
  refine ⟨hfil, fun simFn k => ?_⟩
  rcases hfil with ⟨e, he⟩
  refine ⟨e, ?_⟩
  unfold recommend
  simp only [he]

/-- Witness for C10 at a dataset without a Skills column and a qa resume:
both the filter and recommend fail. -/
theorem C10_missing_column_raises_witness :
    to_detect_the_category_of_resume ("selenium expert") = some "qa" ∧
      ("Skills" ∉ (DataFrame.mk ["JobTitle", "JobDescription"]
        [[some "x", some "y"]]).cols) ∧
      ((∃ e, to_filter_the_jobs_basedon_category
          (DataFrame.mk ["JobTitle", "JobDescription"] [[some "x", some "y"]])
          ("selenium expert") = .error e) ∧
        ∀ (simFn : String → String → ℚ) (k : Nat),
          ∃ e, recommend (DataFrame.mk ["JobTitle", "JobDescription"]
            [[some "x", some "y"]]) ("selenium expert") simFn k = .error e) :=
  ⟨by decide, by decide,
    C10_missing_column_raises
      (DataFrame.mk ["JobTitle", "JobDescription"] [[some "x", some "y"]])
      ("selenium expert") ("qa") (by decide)
      (Or.inr (Or.inr (by decide)))⟩

theorem filter_ok_cols (df : DataFrame) (resume : String) (fdf : DataFrame)
    (c : Option String)
    (h : to_filter_the_jobs_basedon_category df resume = .ok (fdf, c)) :
    fdf.cols = df.cols := by
  unfold to_filter_the_jobs_basedon_category at h
  rcases hdet : to_detect_the_category_of_resume resume with _ | cat <;>
    simp only [hdet] at h
  · simp only [Except.ok.injEq, Prod.mk.injEq] at h
    rw [← h.1]
  · split at h
    · simp only [Except.ok.injEq, Prod.mk.injEq] at h
      rw [← h.1]
    · split at h
      · exact absurd h (by simp)
      · split at h
        · exact absurd h (by simp)
        · split at h
          · exact absurd h (by simp)
          · split at h
            · simp only [Except.ok.injEq, Prod.mk.injEq] at h
              rw [← h.1]
            · simp only [Except.ok.injEq, Prod.mk.injEq] at h
              rw [← h.1]
              rfl

theorem compose_ok_of_cols (df : DataFrame)
    (ht : "JobTitle" ∈ df.cols) (hs : "Skills" ∈ df.cols)
    (hd : "JobDescription" ∈ df.cols) :
    to_compose_jobcorpus df =
      .ok ((List.zipWith3 (fun t s d => t ++ " || " ++ s ++ " || " ++ d)
        ((df.colVals "JobTitle").map (fun v => v.getD "nan"))
        ((df.colVals "Skills").map (fun v => v.getD "nan"))
        ((df.colVals "JobDescription").map (fun v => v.getD "nan"))).map
          text_that_is_cleaned) := by
  unfold to_compose_jobcorpus dfGetAstypeStr
  rw [if_pos ht, if_pos hs, if_pos hd]

/-- C7: evaluation of recommend at an empty (three-column) retained dataset,
the only situation with an empty filtered set, since the category filter
otherwise falls back to the full dataset.  The filter returns the empty frame
with no category, and recommend then raises the sklearn zero-sample
ValueError at the similarity stage (model.py lines 133-134) before the
`len(sim) == 0` guard of line 136 can run, so the typed empty result the
claim (and that guard) prescribe is never produced: the guard is dead code. -/
theorem C7_empty_filtered_set_raises :
    to_filter_the_jobs_basedon_category
        (DataFrame.mk ["JobTitle", "JobDescription", "Skills"] []) ("zzz") =
      .ok (DataFrame.mk ["JobTitle", "JobDescription", "Skills"] [], none) ∧
      recommend (DataFrame.mk ["JobTitle", "JobDescription", "Skills"] [])
          ("zzz") (fun _ _ => (0 : ℚ)) 5 =
        .error ("ValueError: Found array with 0 sample(s)") :=
  ⟨by decide, by decide⟩

/-- C8: the resume parser fails if and only if the lower-cased file extension
is not one of .pdf, .docx, .txt; the error message names the unsupported
extension and lists the supported set, and for supported extensions the
parser always returns a text (extraction failures inside the readers degrade
to the empty string rather than raising). -/
theorem C8_unsupported_extension_rejection (path : String) (pdf : PdfOutcome)
    (miner : Option String) (dcx : Option (List String)) (txt : Option String) :
    ((pyLower (pathSuffix path) ∈ Formats_supported →
        ∃ t, to_parse_the_resume path pdf miner dcx txt = .ok t) ∧
      (pyLower (pathSuffix path) ∉ Formats_supported →
        to_parse_the_resume path pdf miner dcx txt =
            .error (unsupportedMsg (pyLower (pathSuffix path))) ∧
          unsupportedMsg (pyLower (pathSuffix path)) =
            "❌ Given file type is not supported: " ++ pyLower (pathSuffix path) ++
              ". formats that are supported: " ++ ".pdf, .docx, .txt")) := by
  constructor
  · intro hmem
    simp only [Formats_supported, List.mem_cons, List.not_mem_nil, or_false] at hmem
    simp only [to_parse_the_resume]
    rcases hmem with h | h | h
    · rw [if_pos h]
      exact ⟨_, rfl⟩
    · rw [if_neg (by rw [h]; decide), if_pos h]
      exact ⟨_, rfl⟩
    · rw [if_neg (by rw [h]; decide), if_neg (by rw [h]; decide), if_pos h]
      exact ⟨_, rfl⟩
  · intro hnot
    simp only [Formats_supported, List.mem_cons, List.not_mem_nil, or_false,
      not_or] at hnot
    simp only [to_parse_the_resume]
    rw [if_neg hnot.1, if_neg hnot.2.1, if_neg hnot.2.2]
    refine ⟨rfl, ?_⟩
    unfold unsupportedMsg
    rw [show String.intercalate (", ") Formats_supported = (".pdf, .docx, .txt")
      from by decide]

/-- Witness for C8 at the path "resume.csv": the extension .csv is
unsupported, the parser fails, and the message names .csv and lists the
supported formats. -/
theorem C8_unsupported_extension_rejection_witness :
    (pyLower (pathSuffix ("resume.csv")) ∉ Formats_supported) ∧
      (to_parse_the_resume ("resume.csv") PdfOutcome.raises none none none =
          .error (unsupportedMsg (pyLower (pathSuffix ("resume.csv")))) ∧
        unsupportedMsg (pyLower (pathSuffix ("resume.csv"))) =
          "❌ Given file type is not supported: " ++ pyLower (pathSuffix ("resume.csv")) ++
            ". formats that are supported: " ++ ".pdf, .docx, .txt") :=
  ⟨by decide,
    (C8_unsupported_extension_rejection ("resume.csv") PdfOutcome.raises
      none none none).2 (by decide)⟩

theorem length_zipWith3 {A B C D : Type} (f : A → B → C → D) :
    ∀ (as : List A) (bs : List B) (cs : List C),
      (List.zipWith3 f as bs cs).length = min (min as.length bs.length) cs.length := by
  intro as
  induction as with
  | nil => intro bs cs; simp [List.zipWith3]
  | cons a as ih =>
    intro bs cs
    cases bs with
    | nil => simp [List.zipWith3]
    | cons b bs =>
      cases cs with
      | nil => simp [List.zipWith3]
      | cons c cs =>
        simp only [List.zipWith3, List.length_cons, ih]
        omega

theorem compose_ok_cols (df : DataFrame) (corpus : List String)
    (h : to_compose_jobcorpus df = .ok corpus) :
    "JobTitle" ∈ df.cols ∧ "Skills" ∈ df.cols ∧ "JobDescription" ∈ df.cols := by
  unfold to_compose_jobcorpus dfGetAstypeStr at h
  by_cases ht : "JobTitle" ∈ df.cols
  · by_cases hsk : "Skills" ∈ df.cols
    · by_cases hdd : "JobDescription" ∈ df.cols
      · exact ⟨ht, hsk, hdd⟩
      · rw [if_pos ht, if_pos hsk, if_neg hdd] at h
        simp at h
    · rw [if_pos ht, if_neg hsk] at h
      simp at h
  · rw [if_neg ht] at h
    simp at h

theorem compose_length (df : DataFrame) (corpus : List String)
    (h : to_compose_jobcorpus df = .ok corpus) : corpus.length = df.rows.length := by
  obtain ⟨ht, hsk, hdd⟩ := compose_ok_cols df corpus h
  rw [compose_ok_of_cols df ht hsk hdd] at h
  injection h with h
  rw [← h]
  simp [length_zipWith3, DataFrame.colVals]

theorem argRel_total (sim : List ℚ) : ∀ i j, argRel sim i j ∨ argRel sim j i := by
  intro i j
  unfold argRel
  rcases lt_trichotomy (sim.getD i 0) (sim.getD j 0) with h | h | h
  · right; left; exact h
  · rcases Nat.le_total i j with hij | hij
    · left; right; exact ⟨h, hij⟩
    · right; right; exact ⟨h.symm, hij⟩
  · left; left; exact h

theorem argRel_trans (sim : List ℚ) :
    ∀ i j k, argRel sim i j → argRel sim j k → argRel sim i k := by
  intro i j k hij hjk
  unfold argRel at *
  rcases hij with h1 | ⟨h1, h1'⟩ <;> rcases hjk with h2 | ⟨h2, h2'⟩
  · left; exact h2.trans h1
  · left; rw [← h2]; exact h1
  · left; rw [h1]; exact h2
  · right; exact ⟨h1.trans h2, h1'.trans h2'⟩

theorem argRel_le (sim : List ℚ) {i j : Nat} (h : argRel sim i j) :
    sim.getD j 0 ≤ sim.getD i 0 := by
  rcases h with h | ⟨h, -⟩
  · exact le_of_lt h
  · exact le_of_eq h.symm

theorem top_idx_pairwise (sim : List ℚ) (k : Nat) :
    List.Pairwise (argRel sim) (top_idx sim k) := by
  haveI : IsTotal Nat (argRel sim) := ⟨argRel_total sim⟩
  haveI : IsTrans Nat (argRel sim) := ⟨argRel_trans sim⟩
  unfold top_idx
  exact List.Pairwise.sublist (List.take_sublist _ _)
    (List.sorted_insertionSort (argRel sim) (List.range sim.length))

theorem top_idx_length (sim : List ℚ) (k : Nat) :
    (top_idx sim k).length = min k sim.length := by
  unfold top_idx
  rw [List.length_take,
    (List.perm_insertionSort (argRel sim) (List.range sim.length)).length_eq,
    List.length_range]

theorem top_idx_perm_all (sim : List ℚ) (k : Nat) (h : sim.length ≤ k) :
    (top_idx sim k).Perm (List.range sim.length) := by
  unfold top_idx
  rw [List.take_of_length_le]
  · exact List.perm_insertionSort (argRel sim) (List.range sim.length)
  · rw [(List.perm_insertionSort (argRel sim) (List.range sim.length)).length_eq]
    simpa using h

theorem map_getD_range (l : List ℚ) :
    (List.range l.length).map (fun i => l.getD i 0) = l := by
  apply List.ext_getElem
  · simp
  · intro n h1 h2
    simp only [List.getElem_map, List.getElem_range]
    rw [List.getD_eq_getElem l 0 h2]

theorem map_simEntry_getD_range (nl : List ℚ) :
    (List.range nl.length).map (fun i => simEntry (nl.getD i 0)) = nl.map simEntry := by
  conv_rhs => rw [← map_getD_range nl]
  rw [List.map_map]
  rfl

theorem roundHalfEven_mono {x y : ℚ} (h : x ≤ y) :
    roundHalfEven x ≤ roundHalfEven y := by
  unfold roundHalfEven
  have hf : ⌊x⌋ ≤ ⌊y⌋ := Int.floor_mono h
  rcases eq_or_lt_of_le hf with heq | hlt
  · rw [← heq]
    have hd : x - ⌊x⌋ ≤ y - ⌊x⌋ := by linarith
    split_ifs <;> first | omega | linarith
  · have h1 : (if x - ⌊x⌋ < 1/2 then (⌊x⌋ : ℤ)
        else if (1 : ℚ)/2 < x - ⌊x⌋ then ⌊x⌋ + 1
        else if ⌊x⌋ % 2 = 0 then ⌊x⌋ else ⌊x⌋ + 1) ≤ ⌊x⌋ + 1 := by
      split_ifs <;> omega
    have h2 : (⌊y⌋ : ℤ) ≤ (if y - ⌊y⌋ < 1/2 then (⌊y⌋ : ℤ)
        else if (1 : ℚ)/2 < y - ⌊y⌋ then ⌊y⌋ + 1
        else if ⌊y⌋ % 2 = 0 then ⌊y⌋ else ⌊y⌋ + 1) := by
      split_ifs <;> omega
    linarith [h1, h2, hlt]

theorem np_round2_mono {x y : ℚ} (h : x ≤ y) : np_round2 x ≤ np_round2 y := by
  unfold np_round2
  have hr := roundHalfEven_mono (mul_le_mul_of_nonneg_right h (by norm_num : (0:ℚ) ≤ 100))
  have hrc : ((roundHalfEven (x * 100) : ℤ) : ℚ) ≤ ((roundHalfEven (y * 100) : ℤ) : ℚ) := by
    exact_mod_cast hr
  exact (div_le_div_iff_of_pos_right (by norm_num : (0:ℚ) < 100)).mpr hrc

theorem simEntry_mono {x y : ℚ} (h : x ≤ y) : simEntry x ≤ simEntry y := by
  unfold simEntry clip01
  apply np_round2_mono
  apply mul_le_mul_of_nonneg_right _ (by norm_num : (0:ℚ) ≤ 100)
  exact max_le_max (le_refl 0) (min_le_min (le_refl 1) h)

theorem recommend_ok_spec (df : DataFrame) (resume : String)
    (simFn : String → String → ℚ) (k : Nat) (fdf : DataFrame) (c : Option String)
    (corpus : List String)
    (hf : to_filter_the_jobs_basedon_category df resume = .ok (fdf, c))
    (hc : to_compose_jobcorpus fdf = .ok corpus) (hne : corpus ≠ []) :
    recommend df resume simFn k = .ok
      { cols := keepColsOf fdf ++ ["similarity"],
        rows := (top_idx (corpus.map (simFn (text_that_is_cleaned resume))) k).map
          (fun i => (keepColsOf fdf).map (fun col => fdf.cellAt i col)),
        sims := (top_idx (corpus.map (simFn (text_that_is_cleaned resume))) k).map
          (fun i => simEntry
            ((corpus.map (simFn (text_that_is_cleaned resume))).getD i 0)) } := by
  unfold recommend
  simp only [hf, hc]
  rw [if_neg hne]
  rw [if_neg (by simp [List.length_eq_zero, hne])]

/-- C3: with topK = 5, whenever the filtered job set holds at least 5 jobs
whose similarity scores are pairwise distinct, recommend returns exactly 5
rows with the similarity column non-increasing from the first row to the
last; and when the filtered set holds fewer than 5 jobs (at least one — with
zero the similarity stage raises before any result is formed, see the C7
evidence), all of them are returned, sorted descending by similarity (the
output similarity column is a descending permutation of all the jobs'
similarity values). -/
theorem C3_recommend_topk (df : DataFrame) (resume : String)
    (simFn : String → String → ℚ) (fdf : DataFrame) (c : Option String)
    (corpus : List String)
    (hf : to_filter_the_jobs_basedon_category df resume = .ok (fdf, c))
    (hc : to_compose_jobcorpus fdf = .ok corpus) :
    ((5 ≤ fdf.rows.length →
        (corpus.map (simFn (text_that_is_cleaned resume))).Nodup →
        ∃ out, recommend df resume simFn 5 = .ok out ∧
          out.rows.length = 5 ∧ out.sims.length = 5 ∧
          out.sims.Pairwise (fun a b => b ≤ a)) ∧
      (0 < fdf.rows.length → fdf.rows.length < 5 →
        ∃ out, recommend df resume simFn 5 = .ok out ∧
          out.rows.length = fdf.rows.length ∧
          out.sims.Pairwise (fun a b => b ≤ a) ∧
          out.sims.Perm
            ((corpus.map (simFn (text_that_is_cleaned resume))).map simEntry))) := by
  have hclen : corpus.length = fdf.rows.length := compose_length fdf corpus hc
  have hslen : (corpus.map (simFn (text_that_is_cleaned resume))).length =
      fdf.rows.length := by rw [List.length_map, hclen]
  have hpw : (top_idx (corpus.map (simFn (text_that_is_cleaned resume))) 5).Pairwise
        (argRel (corpus.map (simFn (text_that_is_cleaned resume)))) :=
    top_idx_pairwise _ 5
  have hpwmap : ((top_idx (corpus.map (simFn (text_that_is_cleaned resume))) 5).map
        (fun i => simEntry
          ((corpus.map (simFn (text_that_is_cleaned resume))).getD i 0))).Pairwise
      (fun a b => b ≤ a) :=
    List.Pairwise.map _ (fun i j hij => simEntry_mono (argRel_le _ hij)) hpw
  constructor
  · intro h5 _
    have hne : corpus ≠ [] := by
      intro h0
      rw [h0] at hclen
      simp at hclen
      omega
    refine ⟨_, recommend_ok_spec df resume simFn 5 fdf c corpus hf hc hne, ?_, ?_, hpwmap⟩
    · rw [List.length_map, top_idx_length, hslen]
      exact min_eq_left h5
    · rw [List.length_map, top_idx_length, hslen]
      exact min_eq_left h5
  · intro hpos hlt
    have h0 : corpus ≠ [] := by
      intro h0
      rw [h0] at hclen
      simp at hclen
      omega
    refine ⟨_, recommend_ok_spec df resume simFn 5 fdf c corpus hf hc h0, ?_, hpwmap, ?_⟩
    · rw [List.length_map, top_idx_length, hslen]
      exact min_eq_right (le_of_lt hlt)
    · have hperm := top_idx_perm_all (corpus.map (simFn (text_that_is_cleaned resume))) 5
        (by rw [hslen]; omega)
      have := hperm.map
        (fun i => simEntry
          ((corpus.map (simFn (text_that_is_cleaned resume))).getD i 0))
      rw [map_simEntry_getD_range] at this
      exact this

/-- Witness for C3: a five-row dataset with pairwise distinct length-based
scores; recommend returns exactly 5 rows with a non-increasing similarity
column. -/
theorem C3_recommend_topk_witness :
    (to_filter_the_jobs_basedon_category sampleJobs ("zzz") = .ok (sampleJobs, none)) ∧
      (to_compose_jobcorpus sampleJobs =
        .ok ["a || ||", "bb || ||", "ccc || ||", "dddd || ||", "eeeee || ||"]) ∧
      5 ≤ sampleJobs.rows.length ∧
      ((["a || ||", "bb || ||", "ccc || ||", "dddd || ||", "eeeee || ||"].map
        (lengthScore (text_that_is_cleaned ("zzz")))).Nodup) ∧
      (∃ out, recommend sampleJobs ("zzz") lengthScore 5 = .ok out ∧
        out.rows.length = 5 ∧ out.sims.length = 5 ∧
        out.sims.Pairwise (fun a b => b ≤ a)) :=
  ⟨by decide, by decide, by decide, by decide,
    (C3_recommend_topk sampleJobs ("zzz") lengthScore sampleJobs none
        (["a || ||", "bb || ||", "ccc || ||", "dddd || ||", "eeeee || ||"])
        (by decide) (by decide)).1 (by decide) (by decide)⟩
